import Mathlib

/-
Verification of the kittylyst core against its specification.

Shallow embedding of `src/kittylyst/metric.py` and `src/kittylyst/engine.py`:
Python floats are idealized as rationals (ℚ), Python ints as ℤ/ℕ, NaN
sentinels as `Option` `none`, and runtime errors (`ZeroDivisionError`,
`KeyError`, `AttributeError`, calling `None`) as an explicit error type
via `Except`.  `np.sqrt` is external library code and is abstracted as a
function parameter `sqrtQ : ℚ → ℚ`; no claim depends on its value because
the only claimed `std` fact (a single update gives `std == 0`) is produced
by the `n == 1` branch, which assigns the literal `0.0` without calling
`np.sqrt`.
-/

namespace Kittylyst

/-- Runtime errors the embedded Python code can raise. -/
inductive PyError where
  | zeroDivision
  | keyError
  | attributeError
  | noneNotCallable
deriving DecidableEq, Repr

/-- Decidable equality of embedded fallible results, so that concrete runs
can be checked by evaluation. -/
instance {ε α : Type} [DecidableEq ε] [DecidableEq α] :
    DecidableEq (Except ε α) := fun x y =>
  match x, y with
  | .ok a, .ok b =>
      if h : a = b then .isTrue (by rw [h])
      else .isFalse (fun hc => h (Except.ok.inj hc))
  | .error a, .error b =>
      if h : a = b then .isTrue (by rw [h])
      else .isFalse (fun hc => h (Except.error.inj hc))
  | .ok _, .error _ => .isFalse (fun hc => Except.noConfusion hc)
  | .error _, .ok _ => .isFalse (fun hc => Except.noConfusion hc)

/-! ## AverageMetric (metric.py lines 35-80) -/

/-- Mutable state of `AverageMetric` (fields set in `__init__` / `reset`).
`mean` and `std` are `Option ℚ`, with `none` standing for the `np.nan`
sentinel assigned at construction and on `reset`. -/
structure AverageMetricState where
  n : Nat
  value : ℚ
  mean : Option ℚ
  mean_old : ℚ
  m_s : ℚ
  std : Option ℚ
  num_samples : ℤ
deriving DecidableEq, Repr

/-- State after `AverageMetric.__init__` or `AverageMetric.reset`
(metric.py lines 36-53): both assign the same seven fields. -/
def AverageMetric.resetState : AverageMetricState :=
  { n := 0, value := 0, mean := none, mean_old := 0, m_s := 0,
    std := none, num_samples := 0 }

/-- `AverageMetric.update(value, num_samples)` (metric.py lines 55-74),
Welford's weighted online update.  `sqrtQ` abstracts `np.sqrt`. -/
def AverageMetric.update (sqrtQ : ℚ → ℚ) (st : AverageMetricState)
    (value : ℚ) (num_samples : ℤ) : AverageMetricState :=
  let n := st.n + 1
  let ns := st.num_samples + num_samples
  if n = 1 then
    { n := n, value := value, mean := some (0 + value), std := some 0,
      mean_old := 0 + value, m_s := 0, num_samples := ns }
  else
    let mean := st.mean_old + (value - st.mean_old) * (num_samples : ℚ) / (ns : ℚ)
    let m_s := st.m_s + (value - st.mean_old) * (value - mean) * (num_samples : ℚ)
    { n := n, value := value, mean := some mean, mean_old := mean,
      m_s := m_s, std := some (sqrtQ (m_s / ((ns : ℚ) - 1))),
      num_samples := ns }

/-- Folding a sequence of `(value, weight)` observations through
`AverageMetric.update`, in order. -/
def AverageMetric.updates (sqrtQ : ℚ → ℚ) (st : AverageMetricState)
    (l : List (ℚ × ℤ)) : AverageMetricState :=
  l.foldl (fun s p => AverageMetric.update sqrtQ s p.1 p.2) st

/-- Direct weighted-average numerator `sum(value_i * weight_i)`. -/
def weightedSum (l : List (ℚ × ℤ)) : ℚ :=
  (l.map (fun p => p.1 * (p.2 : ℚ))).sum

/-- Direct weighted-average denominator `sum(weight_i)`. -/
def totalWeight (l : List (ℚ × ℤ)) : ℤ :=
  (l.map Prod.snd).sum

/-! ## AccuracyMetric (metric.py lines 83-93) -/

/-- The list comprehension in `AccuracyMetric.update` (metric.py lines 85-87):
`[(yi > 0) == (li.data > 0) for yi, li in zip(targets, logits)]`.
`zip` truncates to the shorter sequence; `li.data` unwraps a scalar
container and is modelled as the value itself. -/
def agreementList (logits targets : List ℚ) : List Bool :=
  (targets.zip logits).map (fun p => decide (0 < p.1) == decide (0 < p.2))

/-- `AccuracyMetric.update(logits, targets)` (metric.py lines 84-89).
`sum(accuracy) / len(accuracy)` raises `ZeroDivisionError` when the zipped
list is empty; otherwise the batch value (fraction of `True` entries) and
the length are forwarded to `AverageMetric.update`. -/
def AccuracyMetric.update (sqrtQ : ℚ → ℚ) (st : AverageMetricState)
    (logits targets : List ℚ) : Except PyError AverageMetricState :=
  let accuracy := agreementList logits targets
  if accuracy.length = 0 then
    .error .zeroDivision
  else
    .ok (AverageMetric.update sqrtQ st
      ((accuracy.count true : ℚ) / (accuracy.length : ℚ))
      (accuracy.length : ℤ))

/-- Modelled from the spec: the batch value of the accuracy metric as the
spec words it — "the fraction of positions where (prediction > 0) agrees
with (target > 0)", stated over index positions of the two equal-length
sequences.  Compared against the zip-comprehension in the source. -/
def specAgreementFraction (logits targets : List ℚ) : ℚ :=
  (((List.range logits.length).filter
      (fun i => decide (0 < logits.getD i 0) == decide (0 < targets.getD i 0))).length : ℚ)
    / (logits.length : ℚ)

/-! ## Engine (engine.py lines 94-167) -/

/-- A checkpoint: a Python dict from string keys to opaque values,
embedded as an association list looked up by first match. -/
abbrev Checkpoint (V : Type) : Type := List (String × V)

/-- Python `d[k]`: the value at `k`, or a `KeyError`. -/
def dictGet {V : Type} (d : Checkpoint V) (k : String) : Except PyError V :=
  match d.lookup k with
  | some v => .ok v
  | none => .error .keyError

/-- The reference `Engine`'s instance state relevant to checkpointing:
`_checkpoint_dump` is an attribute that does not exist until the first
`save_checkpoint` call (`none`), after which it holds the last saved
checkpoint — whatever path it was saved under. -/
structure EngineState (V : Type) where
  checkpoint_dump : Option (Checkpoint V)
deriving DecidableEq, Repr

/-- A freshly constructed `Engine()`: no `_checkpoint_dump` attribute. -/
def Engine.new {V : Type} : EngineState V := ⟨none⟩

/-- `Engine.save_checkpoint(checkpoint, path)` (engine.py lines 155-157):
stores the checkpoint in `self._checkpoint_dump`.  The `path` argument is
only printed, never used as a key. -/
def Engine.save_checkpoint {V : Type} (st : EngineState V)
    (checkpoint : Checkpoint V) (path : String) : EngineState V :=
  { checkpoint_dump := some checkpoint }

/-- `Engine.load_checkpoint(path)` (engine.py lines 159-161): returns
`self._checkpoint_dump`; reading the attribute before any save raises
`AttributeError`.  The `path` argument is only printed, never consulted. -/
def Engine.load_checkpoint {V : Type} (st : EngineState V)
    (path : String) : Except PyError (Checkpoint V) :=
  match st.checkpoint_dump with
  | some c => .ok c
  | none => .error .attributeError

/-- `Engine.unpack_checkpoint(checkpoint, model, criterion, optimizer,
scheduler)` (engine.py lines 141-153): reads the four fixed keys into
local bindings that are discarded, and returns `None`.  The returned
quadruple models the caller's view of its own component arguments after
the call, which Python's local rebinding cannot change. -/
def Engine.unpack_checkpoint {V : Type} (checkpoint : Checkpoint V)
    (model criterion optimizer scheduler : V) :
    Except PyError (V × V × V × V) := do
  let _model ← dictGet checkpoint "model"
  let _criterion ← dictGet checkpoint "criterion"
  let _optimizer ← dictGet checkpoint "optimizer"
  let _scheduler ← dictGet checkpoint "scheduler"
  return (model, criterion, optimizer, scheduler)

/-- Calling a zero-argument factory: a supplied factory may carry a side
effect, threaded through an explicit state `σ`; calling an unset (`None`)
factory raises `TypeError: NoneType is not callable`. -/
def callFactory0 {σ V : Type} (f : Option (σ → V × σ)) (s : σ) :
    Except PyError (V × σ) :=
  match f with
  | some g => .ok (g s)
  | none => .error .noneNotCallable

/-- Calling a one-argument factory (`optimizer_fn(model=...)`,
`scheduler_fn(optimizer=...)`); unset factories raise as in
`callFactory0`. -/
def callFactory1 {σ V : Type} (f : Option (V → σ → V × σ)) (x : V) (s : σ) :
    Except PyError (V × σ) :=
  match f with
  | some g => .ok (g x s)
  | none => .error .noneNotCallable

/-- `Engine.init_components(model_fn, criterion_fn, optimizer_fn,
scheduler_fn)` (engine.py lines 109-120): unconditionally calls
`model_fn()`, then `criterion_fn()`, then `optimizer_fn(model=model)`,
then `scheduler_fn(optimizer=optimizer)`, and returns the quadruple.
Each parameter defaults to `None`; there is no guard before calling. -/
def Engine.init_components {σ V : Type}
    (model_fn criterion_fn : Option (σ → V × σ))
    (optimizer_fn scheduler_fn : Option (V → σ → V × σ)) (s0 : σ) :
    Except PyError ((V × V × V × V) × σ) := do
  let (model, s1) ← callFactory0 model_fn s0
  let (criterion, s2) ← callFactory0 criterion_fn s1
  let (optimizer, s3) ← callFactory1 optimizer_fn model s2
  let (scheduler, s4) ← callFactory1 scheduler_fn optimizer s3
  return ((model, criterion, optimizer, scheduler), s4)

/-- An observable record of one factory invocation, carrying the argument
the factory received. -/
inductive CallEvent (V : Type) where
  | modelCall
  | criterionCall
  | optimizerCall (model : V)
  | schedulerCall (optimizer : V)
deriving DecidableEq, Repr

/-- Instrument a pure zero-argument factory so each invocation appends an
event to a trace. -/
def traced0 {V : Type} (ev : CallEvent V) (f : Unit → V) :
    List (CallEvent V) → V × List (CallEvent V) :=
  fun tr => (f (), tr ++ [ev])

/-- Instrument a pure one-argument factory so each invocation appends an
event recording the argument it received. -/
def traced1 {V : Type} (mk : V → CallEvent V) (f : V → V) :
    V → List (CallEvent V) → V × List (CallEvent V) :=
  fun x tr => (f x, tr ++ [mk x])

end Kittylyst

namespace Kittylyst

/-! ## Welford invariant for the running weighted mean -/

/-- Invariant carried across updates: after at least one update with
cumulative weighted sum `S` and cumulative weight `W > 0`, both `mean_old`
and `mean` hold the exact weighted average `S / W`. -/
def MeanInv (st : AverageMetricState) (S : ℚ) (W : ℤ) : Prop :=
  st.n ≠ 0 ∧ st.num_samples = W ∧ 0 < W ∧
    st.mean_old = S / (W : ℚ) ∧ st.mean = some (S / (W : ℚ))

lemma meanInv_first (sqrtQ : ℚ → ℚ) (v : ℚ) (w : ℤ) (hw : 0 < w) :
    MeanInv (AverageMetric.update sqrtQ AverageMetric.resetState v w) (v * (w : ℚ)) w := by
  have hw0 : (w : ℚ) ≠ 0 := by exact_mod_cast hw.ne'
  refine ⟨by simp [AverageMetric.update, AverageMetric.resetState], ?_, hw, ?_, ?_⟩ <;>
    simp [AverageMetric.update, AverageMetric.resetState, mul_div_assoc, div_self hw0]

lemma meanInv_step (sqrtQ : ℚ → ℚ) (st : AverageMetricState) (S : ℚ) (W : ℤ)
    (v : ℚ) (w : ℤ) (hinv : MeanInv st S W) (hw : 0 < w) :
    MeanInv (AverageMetric.update sqrtQ st v w) (S + v * (w : ℚ)) (W + w) := by
  obtain ⟨hn, hns, hW, hmo, hm⟩ := hinv
  have hW0 : ((W : ℚ)) ≠ 0 := by exact_mod_cast hW.ne'
  have hWw : (0 : ℤ) < W + w := by omega
  have hWw0 : ((W : ℚ) + (w : ℚ)) ≠ 0 := by
    have : ((W + w : ℤ) : ℚ) ≠ 0 := by exact_mod_cast hWw.ne'
    push_cast at this; exact this
  have hbranch : st.n + 1 ≠ 1 := by omega
  have hkey : S / (W : ℚ) + (v - S / (W : ℚ)) * (w : ℚ) / ((W : ℚ) + (w : ℚ))
      = (S + v * (w : ℚ)) / ((W : ℚ) + (w : ℚ)) := by
    field_simp
    ring
  refine ⟨?_, ?_, hWw, ?_, ?_⟩ <;>
    simp [AverageMetric.update, hbranch, hns, hmo, hm, hkey, push_cast]

lemma meanInv_updates (sqrtQ : ℚ → ℚ) (l : List (ℚ × ℤ)) (st : AverageMetricState)
    (S : ℚ) (W : ℤ) (hinv : MeanInv st S W) (hw : ∀ p ∈ l, 0 < p.2) :
    MeanInv (AverageMetric.updates sqrtQ st l) (S + weightedSum l) (W + totalWeight l) := by
  induction l generalizing st S W with
  | nil => simpa [AverageMetric.updates, weightedSum, totalWeight] using hinv
  | cons p l ih =>
    have h1 : MeanInv (AverageMetric.update sqrtQ st p.1 p.2) (S + p.1 * (p.2 : ℚ)) (W + p.2) :=
      meanInv_step sqrtQ st S W p.1 p.2 hinv (hw p (List.mem_cons_self p l))
    have h2 := ih (AverageMetric.update sqrtQ st p.1 p.2) (S + p.1 * (p.2 : ℚ)) (W + p.2) h1
      (fun q hq => hw q (List.mem_cons_of_mem p hq))
    have e1 : S + weightedSum (p :: l) = S + p.1 * (p.2 : ℚ) + weightedSum l := by
      simp [weightedSum]; ring
    have e2 : W + totalWeight (p :: l) = W + p.2 + totalWeight l := by
      simp [totalWeight]; ring
    rw [e1, e2]
    simpa [AverageMetric.updates] using h2

lemma meanInv_from_reset (sqrtQ : ℚ → ℚ) (p : ℚ × ℤ) (l : List (ℚ × ℤ))
    (hw : ∀ q ∈ p :: l, 0 < q.2) :
    MeanInv (AverageMetric.updates sqrtQ AverageMetric.resetState (p :: l))
      (weightedSum (p :: l)) (totalWeight (p :: l)) := by
  have h1 : MeanInv (AverageMetric.update sqrtQ AverageMetric.resetState p.1 p.2)
      (p.1 * (p.2 : ℚ)) p.2 :=
    meanInv_first sqrtQ p.1 p.2 (hw p (List.mem_cons_self p l))
  have h2 := meanInv_updates sqrtQ l _ _ _ h1 (fun q hq => hw q (List.mem_cons_of_mem p hq))
  have e1 : p.1 * (p.2 : ℚ) + weightedSum l = weightedSum (p :: l) := by
    simp [weightedSum]
  have e2 : p.2 + totalWeight l = totalWeight (p :: l) := by
    simp [totalWeight]
  rw [e1, e2] at h2
  simpa [AverageMetric.updates] using h2

/-! ## Claims -/

/-- C1: for every sequence of `(value, weight)` pairs with positive
weights, updating a freshly constructed (or reset) `AverageMetric` with
each pair in order yields a mean equal to the direct weighted average
`sum(value_i * weight_i) / sum(weight_i)`, exactly over rational
arithmetic, and `num_samples` equal to the total weight; in particular two
updates `(a, w)`, `(b, w)` yield `mean = (a + b) / 2` and
`num_samples = 2 * w`. -/
theorem averageMetric_weighted_mean_exact (sqrtQ : ℚ → ℚ) :
    (∀ l : List (ℚ × ℤ), l ≠ [] → (∀ p ∈ l, 0 < p.2) →
      (AverageMetric.updates sqrtQ AverageMetric.resetState l).mean
          = some (weightedSum l / (totalWeight l : ℚ)) ∧
        (AverageMetric.updates sqrtQ AverageMetric.resetState l).num_samples
          = totalWeight l) ∧
    (∀ (a b : ℚ) (w : ℤ), 0 < w →
      (AverageMetric.updates sqrtQ AverageMetric.resetState [(a, w), (b, w)]).mean
          = some ((a + b) / 2) ∧
        (AverageMetric.updates sqrtQ AverageMetric.resetState [(a, w), (b, w)]).num_samples
          = 2 * w) := by
  have main : ∀ l : List (ℚ × ℤ), l ≠ [] → (∀ p ∈ l, 0 < p.2) →
      (AverageMetric.updates sqrtQ AverageMetric.resetState l).mean
          = some (weightedSum l / (totalWeight l : ℚ)) ∧
        (AverageMetric.updates sqrtQ AverageMetric.resetState l).num_samples
          = totalWeight l := by
    intro l hl hw
    obtain ⟨p, l', rfl⟩ := List.exists_cons_of_ne_nil hl
    obtain ⟨_, hns, _, _, hm⟩ := meanInv_from_reset sqrtQ p l' hw
    exact ⟨hm, hns⟩
  refine ⟨main, ?_⟩
  intro a b w hw
  have hlist : ∀ p ∈ [(a, w), (b, w)], 0 < p.2 := by
    intro p hp
    simp only [List.mem_cons, List.mem_singleton] at hp
    rcases hp with rfl | rfl | h
    · exact hw
    · exact hw
    · simp at h
  obtain ⟨hm, hns⟩ := main [(a, w), (b, w)] (by simp) hlist
  have hw0 : (w : ℚ) ≠ 0 := by exact_mod_cast hw.ne'
  have hws : weightedSum [(a, w), (b, w)] = a * (w : ℚ) + b * (w : ℚ) := by
    simp [weightedSum]
  have htw : totalWeight [(a, w), (b, w)] = 2 * w := by
    simp [totalWeight]; ring
  refine ⟨?_, by rw [hns, htw]⟩
  rw [hm, hws, htw]
  congr 1
  push_cast
  field_simp
  ring

/-- Witness for C1 at the concrete stream `[(3, 1), (5, 1)]`. -/
theorem averageMetric_weighted_mean_exact_witness :
    (AverageMetric.updates (fun _ => 0) AverageMetric.resetState
        [((3 : ℚ), (1 : ℤ)), (5, 1)]).mean
      = some (weightedSum [((3 : ℚ), (1 : ℤ)), (5, 1)]
          / (totalWeight [((3 : ℚ), (1 : ℤ)), (5, 1)] : ℚ)) :=
  ((averageMetric_weighted_mean_exact (fun _ => 0)).1
    [((3 : ℚ), (1 : ℤ)), (5, 1)] (by decide) (by decide)).1

/-- C2: a single `update(v, w)` on a freshly constructed or freshly reset
`AverageMetric` leaves `mean = v`, `std = 0` and `num_samples = w`. -/
theorem averageMetric_single_update (sqrtQ : ℚ → ℚ) (v : ℚ) (w : ℤ) :
    (AverageMetric.update sqrtQ AverageMetric.resetState v w).mean = some v ∧
    (AverageMetric.update sqrtQ AverageMetric.resetState v w).std = some 0 ∧
    (AverageMetric.update sqrtQ AverageMetric.resetState v w).num_samples = w := by
  refine ⟨?_, ?_, ?_⟩ <;> simp [AverageMetric.update, AverageMetric.resetState]

/-- C3 counterexample: after saving a checkpoint under path `"q"` only,
`load_checkpoint "p"` on the never-saved path `"p"` succeeds (returning the
checkpoint saved under `"q"`) instead of failing with a not-found error. -/
theorem load_checkpoint_unsaved_path_succeeds :
    Engine.load_checkpoint
        (Engine.save_checkpoint (Engine.new (V := ℕ)) [("model", 0)] "q") "p"
      = .ok [("model", 0)] ∧ ("p" : String) ≠ "q" := by
  exact ⟨rfl, by decide⟩

/-- C3 amended: `load_checkpoint p` fails (with an attribute-not-found
error, the `_checkpoint_dump` attribute being unset) exactly when no
`save_checkpoint` call has ever happened on the engine; after any save —
under any path whatsoever — `load_checkpoint p` succeeds for every path
`p` and returns the most recently saved checkpoint. -/
theorem load_checkpoint_ignores_path {V : Type} :
    (∀ p : String,
      Engine.load_checkpoint (Engine.new (V := V)) p = .error .attributeError) ∧
    (∀ (st : EngineState V) (c : Checkpoint V) (q p : String),
      Engine.load_checkpoint (Engine.save_checkpoint st c q) p = .ok c) :=
  ⟨fun _ => rfl, fun _ _ _ _ => rfl⟩

/-- C4 counterexample: `save_checkpoint c "p"` followed by
`save_checkpoint d "q"` under a different path makes `load_checkpoint "p"`
return `d`, not the `c` that was saved under `"p"`. -/
theorem save_checkpoint_not_path_keyed :
    Engine.load_checkpoint
        (Engine.save_checkpoint
          (Engine.save_checkpoint (Engine.new (V := ℕ)) [("model", 0)] "p")
          [("model", 1)] "q") "p"
      = .ok [("model", 1)] ∧
    ([("model", (1 : ℕ))] : Checkpoint ℕ) ≠ [("model", 0)] := by
  exact ⟨rfl, by decide⟩

/-- C4 amended: immediately after `save_checkpoint c p`,
`load_checkpoint q` returns `c` for every query path `q` (including
`q = p`); but any later `save_checkpoint` — under any path, equal or
different — overwrites the single stored checkpoint, so `load_checkpoint p`
then returns the most recently saved checkpoint instead of `c`. -/
theorem save_checkpoint_last_write_wins {V : Type} :
    (∀ (st : EngineState V) (c : Checkpoint V) (p q : String),
      Engine.load_checkpoint (Engine.save_checkpoint st c p) q = .ok c) ∧
    (∀ (st : EngineState V) (c d : Checkpoint V) (p q : String),
      Engine.load_checkpoint
          (Engine.save_checkpoint (Engine.save_checkpoint st c p) d q) p = .ok d) :=
  ⟨fun _ _ _ _ => rfl, fun _ _ _ _ _ => rfl⟩

/-- C5 counterexample: `init_components` with `model_fn` unset but the
other three factories supplied fails with a none-is-not-callable error
instead of returning a bundle with a null model slot. -/
theorem init_components_unset_model_fn_raises :
    Engine.init_components (σ := Unit) (V := ℕ) none
        (some fun s => (2, s)) (some fun x s => (x, s)) (some fun x s => (x, s)) ()
      = .error .noneNotCallable := rfl

/-- C5 amended: whenever at least one factory argument is left unset,
`init_components` fails with a none-is-not-callable error (raised when
execution reaches the first unset factory); no null component slot is ever
produced and no downstream factory receives a null argument. -/
theorem init_components_unset_factory_raises {σ V : Type}
    (model_fn criterion_fn : Option (σ → V × σ))
    (optimizer_fn scheduler_fn : Option (V → σ → V × σ)) (s0 : σ)
    (h : model_fn = none ∨ criterion_fn = none ∨ optimizer_fn = none ∨
      scheduler_fn = none) :
    Engine.init_components model_fn criterion_fn optimizer_fn scheduler_fn s0
      = .error .noneNotCallable := by
  cases model_fn <;> cases criterion_fn <;> cases optimizer_fn <;> cases scheduler_fn <;>
    simp_all [Engine.init_components, callFactory0, callFactory1, Bind.bind, Except.bind]

/-- Witness for the amended C5 with `criterion_fn` unset. -/
theorem init_components_unset_factory_raises_witness :
    Engine.init_components (σ := Unit) (V := ℕ) (some fun s => (1, s)) none
        (some fun x s => (x, s)) (some fun x s => (x, s)) ()
      = .error .noneNotCallable :=
  init_components_unset_factory_raises _ _ _ _ () (Or.inr (Or.inl rfl))

/-- C6: with all four factories supplied, `init_components` invokes each
factory exactly once, in the strict order model, criterion, optimizer,
scheduler (witnessed by the recorded trace), passes the constructed model
to the optimizer factory and the constructed optimizer to the scheduler
factory, and returns the four resulting components. -/
theorem init_components_order_and_dataflow {V : Type}
    (m c : Unit → V) (o sc : V → V) :
    Engine.init_components
        (some (traced0 .modelCall m)) (some (traced0 .criterionCall c))
        (some (traced1 .optimizerCall o)) (some (traced1 .schedulerCall sc)) []
      = .ok ((m (), c (), o (m ()), sc (o (m ()))),
          [CallEvent.modelCall, CallEvent.criterionCall,
           CallEvent.optimizerCall (m ()), CallEvent.schedulerCall (o (m ()))]) := rfl

/-- Bridge between the spec's index-based agreement count and the source's
zip-comprehension: over equal-length sequences they count the same
positions. -/
lemma spec_agreement_count (logits targets : List ℚ) (h : logits.length = targets.length) :
    ((List.range logits.length).filter
        (fun i => decide (0 < logits.getD i 0) == decide (0 < targets.getD i 0))).length
      = (agreementList logits targets).count true := by
  induction logits generalizing targets with
  | nil =>
    have : targets = [] := List.length_eq_zero.mp h.symm
    subst this
    simp [agreementList]
  | cons x xs ih =>
    cases targets with
    | nil => simp at h
    | cons y ys =>
      have h' : xs.length = ys.length := by simpa using h
      rw [List.length_cons, List.range_succ_eq_map, List.filter_cons]
      simp only [List.getD_cons_zero, List.filter_map, Function.comp_def,
        Nat.succ_eq_add_one, List.getD_cons_succ, apply_ite List.length,
        List.length_cons, List.length_map]
      rw [ih ys h']
      simp only [agreementList, List.zip_cons_cons, List.map_cons, List.count_cons]
      cases hx : decide (0 < x) <;> cases hy : decide (0 < y) <;> simp [hx, hy]

/-- C7 counterexample: `AccuracyMetric.update` on sequences of differing
lengths (`[1]` vs `[1, 1]`) does not fail with a length-mismatch error; it
silently computes over the one zipped pair and folds `(1, 1)` into the
aggregator. -/
theorem accuracy_update_length_mismatch_no_error :
    AccuracyMetric.update (fun _ => 0) AverageMetric.resetState [1] [1, 1]
      = .ok { n := 1, value := 1, mean := some 1, mean_old := 1, m_s := 0,
              std := some 0, num_samples := 1 }
    ∧ ([(1 : ℚ)].length ≠ ([1, 1] : List ℚ).length) := by
  constructor
  · show Except.ok (AverageMetric.update (fun _ => 0) AverageMetric.resetState
        ((1 : ℚ) / 1) 1) = _
    simp [AverageMetric.update, AverageMetric.resetState]
  · decide

/-- C7 amended: `AccuracyMetric.update` never raises a length-mismatch
error; given sequences of any lengths it truncates both to
`n = min(len(logits), len(targets))` pairs, computes the agreement
fraction over those `n` pairs and forwards `(value, n)` to the aggregator;
the only failure is a division-by-zero error when `n = 0`. -/
theorem accuracy_update_truncation (sqrtQ : ℚ → ℚ) (st : AverageMetricState) :
    (∀ logits targets : List ℚ, 0 < min logits.length targets.length →
      AccuracyMetric.update sqrtQ st logits targets
        = .ok (AverageMetric.update sqrtQ st
            (((agreementList logits targets).count true : ℚ)
              / ((min logits.length targets.length : ℕ) : ℚ))
            ((min logits.length targets.length : ℕ) : ℤ))) ∧
    (∀ logits targets : List ℚ, min logits.length targets.length = 0 →
      AccuracyMetric.update sqrtQ st logits targets = .error .zeroDivision) := by
  have hlz : ∀ logits targets : List ℚ,
      (agreementList logits targets).length = min logits.length targets.length := by
    intro logits targets
    simp [agreementList, List.length_zip, Nat.min_comm]
  constructor
  · intro logits targets hpos
    simp only [AccuracyMetric.update, hlz, Nat.pos_iff_ne_zero.mp hpos, if_false]
  · intro logits targets hzero
    simp only [AccuracyMetric.update, hlz, hzero, if_true, reduceIte]

/-- Witness for the amended C7 at `logits = [1]`, `targets = [1, 1]`. -/
theorem accuracy_update_truncation_witness :
    AccuracyMetric.update (fun _ => 0) AverageMetric.resetState [1] [1, 1]
      = .ok (AverageMetric.update (fun _ => 0) AverageMetric.resetState
          (((agreementList [1] [1, 1]).count true : ℚ)
            / ((min ([1] : List ℚ).length ([1, 1] : List ℚ).length : ℕ) : ℚ))
          ((min ([1] : List ℚ).length ([1, 1] : List ℚ).length : ℕ) : ℤ)) :=
  (accuracy_update_truncation (fun _ => 0) AverageMetric.resetState).1
    [1] [1, 1] (by decide)

/-- C8: for equal-length non-empty sequences, `AccuracyMetric.update`
computes as batch value the fraction of positions where `prediction > 0`
agrees with `target > 0` (the spec-side index-based formulation) and
forwards that value with the sequence length to the embedded aggregator;
at `update([1, -1, 1], [1, 1, -1])` the batch value is `1/3` and, as first
update after reset, the mean is `1/3`. -/
theorem accuracy_update_equal_lengths (sqrtQ : ℚ → ℚ) (st : AverageMetricState)
    (logits targets : List ℚ) (hlen : logits.length = targets.length)
    (hne : logits.length ≠ 0) :
    AccuracyMetric.update sqrtQ st logits targets
      = .ok (AverageMetric.update sqrtQ st (specAgreementFraction logits targets)
          (logits.length : ℤ)) ∧
    AccuracyMetric.update (fun _ => 0) AverageMetric.resetState [1, -1, 1] [1, 1, -1]
      = .ok { n := 1, value := 1/3, mean := some (1/3), mean_old := 1/3, m_s := 0,
              std := some 0, num_samples := 3 } := by
  constructor
  · have hlz : (agreementList logits targets).length = logits.length := by
      simp [agreementList, List.length_zip, hlen]
    simp only [AccuracyMetric.update, hlz, hne, if_false, specAgreementFraction,
      spec_agreement_count logits targets hlen]
  · show Except.ok (AverageMetric.update (fun _ => 0) AverageMetric.resetState
        ((1 : ℚ) / 3) 3) = _
    simp [AverageMetric.update, AverageMetric.resetState]

/-- Witness for C8 at `logits = [1, -1, 1]`, `targets = [1, 1, -1]`. -/
theorem accuracy_update_equal_lengths_witness :
    AccuracyMetric.update (fun _ => 0) AverageMetric.resetState [1, -1, 1] [1, 1, -1]
      = .ok (AverageMetric.update (fun _ => 0) AverageMetric.resetState
          (specAgreementFraction [1, -1, 1] [1, 1, -1])
          (([1, -1, 1] : List ℚ).length : ℤ)) :=
  (accuracy_update_equal_lengths (fun _ => 0) AverageMetric.resetState
    [1, -1, 1] [1, 1, -1] (by decide) (by decide)).1

/-- C9: on a checkpoint containing the four fixed keys,
`unpack_checkpoint` succeeds (each key lookup finds a value) and is
observably a no-op: every caller-supplied component argument is returned
unchanged and nothing else is produced. -/
theorem unpack_checkpoint_is_noop {V : Type} (checkpoint : Checkpoint V)
    (model criterion optimizer scheduler : V)
    (hm : (checkpoint.lookup "model").isSome = true)
    (hc : (checkpoint.lookup "criterion").isSome = true)
    (ho : (checkpoint.lookup "optimizer").isSome = true)
    (hs : (checkpoint.lookup "scheduler").isSome = true) :
    Engine.unpack_checkpoint checkpoint model criterion optimizer scheduler
      = .ok (model, criterion, optimizer, scheduler) := by
  obtain ⟨a, ha⟩ := Option.isSome_iff_exists.mp hm
  obtain ⟨b, hb⟩ := Option.isSome_iff_exists.mp hc
  obtain ⟨e, he⟩ := Option.isSome_iff_exists.mp ho
  obtain ⟨d, hd⟩ := Option.isSome_iff_exists.mp hs
  simp [Engine.unpack_checkpoint, dictGet, ha, hb, he, hd, Bind.bind, Except.bind,
    Pure.pure, Except.pure]

/-- Witness for C9 on a concrete four-key checkpoint. -/
theorem unpack_checkpoint_is_noop_witness :
    Engine.unpack_checkpoint
        [("model", (10 : ℕ)), ("criterion", 11), ("optimizer", 12), ("scheduler", 13)]
        0 1 2 3
      = .ok (0, 1, 2, 3) :=
  unpack_checkpoint_is_noop _ 0 1 2 3 (by decide) (by decide) (by decide) (by decide)

/-- C10: `AccuracyMetric.update` with an empty logits sequence (in
particular with two empty sequences) fails with a division-by-zero error:
the zipped comparison list is empty and the batch value divides by its
length; there is no guard for empty input. -/
theorem accuracy_update_empty_division_by_zero (sqrtQ : ℚ → ℚ)
    (st : AverageMetricState) (targets : List ℚ) :
    AccuracyMetric.update sqrtQ st [] targets = .error .zeroDivision := by
  simp [AccuracyMetric.update, agreementList]

end Kittylyst
